import Mathlib

/-!
# Shallow embedding of the gym front-desk core (`core/models.py`, `core/services.py`,
`core/forms.py`, `core/views.py`)

Dates are modelled as integer day numbers; timestamps as a day number plus an
hour/minute of day.  Currency values (`DecimalField`) and the churn/BMI
arithmetic are modelled over `ℚ`.  Database tables are lists kept in the
Django default ordering of the corresponding model (`MembershipPass` and
`Attendance` order by descending creation/check-in time, so a freshly created
row is prepended).
-/

namespace Vibe

/-- A calendar date, as a day number (`DateField`). -/
abbrev Date := ℤ

/-- A timestamp (`DateTimeField`): calendar day plus hour and minute of day.
`ExtractHour` reads the `hour` component. -/
structure DateTime where
  day : Date
  hour : Fin 24
  minute : Fin 60
  deriving DecidableEq, Repr

/-- Total minutes since day 0, used to order timestamps and take differences. -/
def DateTime.totalMinutes (t : DateTime) : ℤ :=
  t.day * 1440 + (t.hour : ℤ) * 60 + (t.minute : ℤ)

/-- `(b - a).days` of a Python `timedelta`: the difference in whole days,
floored (Python floors toward negative infinity, as does `Int.fdiv`). -/
def tdiffDays (a b : DateTime) : ℤ :=
  (b.totalMinutes - a.totalMinutes).fdiv 1440

/-- `MembershipPlan` (models.py): name, duration in days, price, active flag. -/
structure Plan where
  id : ℕ
  name : String
  duration_days : ℤ
  price : ℚ
  is_active : Bool
  deriving DecidableEq, Repr

/-- Status of a `MembershipPass`: `'active'` or `'expired'`. -/
inductive PassStatus where
  | active
  | expired
  deriving DecidableEq, Repr

/-- `MembershipPass` (models.py): member, plan, start/end dates, price
snapshot, status. -/
structure Pass where
  id : ℕ
  member : ℕ
  plan : ℕ
  start_date : Date
  end_date : Date
  price_snapshot : ℚ
  status : PassStatus
  deriving DecidableEq, Repr

/-- `Attendance` (models.py): member, optional pass, check-in timestamp,
optional check-out timestamp. -/
structure Attendance where
  id : ℕ
  member : ℕ
  membership_pass : Option ℕ
  checked_in_at : DateTime
  checked_out_at : Option DateTime
  deriving DecidableEq, Repr

/-- The relational state the claims touch: plans, members (by id), passes and
attendances.  `passes` and `attendances` are kept newest-first, matching the
models' default `-created_at` / `-checked_in_at` ordering; `nextPassId` /
`nextAttId` model the autoincrementing primary keys. -/
structure GymState where
  plans : List Plan
  members : List ℕ
  passes : List Pass
  attendances : List Attendance
  nextPassId : ℕ
  nextAttId : ℕ
  deriving DecidableEq, Repr

/-- Look up a plan by primary key (`get_object_or_404(MembershipPlan, pk=...)`). -/
def findPlan (s : GymState) (pid : ℕ) : Option Plan :=
  s.plans.find? (fun p => p.id = pid)

/-- `Member.get_active_pass` (models.py): the member's first pass — under the
default newest-first ordering — with `start_date <= today <= end_date` and
status `'active'`. -/
def get_active_pass (s : GymState) (mid : ℕ) (today : Date) : Option Pass :=
  s.passes.find? (fun p =>
    p.member = mid ∧ p.start_date ≤ today ∧ today ≤ p.end_date ∧ p.status = PassStatus.active)

/-- `Member.has_active_pass` (models.py). -/
def has_active_pass (s : GymState) (mid : ℕ) (today : Date) : Bool :=
  (get_active_pass s mid today).isSome

/-- `MembershipPass.save` on creation (models.py lines 87–96): fills
`start_date` with today when unset, `end_date` with
`start_date + (duration_days - 1)` when unset, and `price_snapshot` with the
plan's price when unset — a `Decimal` equal to 0 is falsy in Python, so a
zero snapshot is also re-read from the plan. -/
def membershipPassSave (plan : Plan) (mid passId : ℕ) (today : Date)
    (startArg endArg : Option Date) (snapArg : Option ℚ) : Pass :=
  let start := startArg.getD today
  { id := passId
    member := mid
    plan := plan.id
    start_date := start
    end_date := endArg.getD (start + (plan.duration_days - 1))
    price_snapshot :=
      match snapArg with
      | none => plan.price
      | some p => if p = 0 then plan.price else p
    status := PassStatus.active }

/-- Outcome of a sale attempt. -/
inductive SellResult where
  | success (p : Pass)
  | conflict
  | invalid
  deriving DecidableEq, Repr

/-- Shared creation step of both sale paths:
`MembershipPass.objects.create(member=member, membership_plan=plan,
start_date=today, price_snapshot=plan.price)` — `end_date` is not passed and
is computed by `save`. -/
def createPass (s : GymState) (mid : ℕ) (plan : Plan) (today : Date) :
    GymState × SellResult :=
  let p := membershipPassSave plan mid s.nextPassId today (some today) none (some plan.price)
  ({ s with passes := p :: s.passes, nextPassId := s.nextPassId + 1 }, SellResult.success p)

/-- The `sell_pass` JSON endpoint (views.py lines 221–250): resolves member and
plan by pk (404 when missing), rejects with an error when the member already
has an active pass, and otherwise creates the pass. -/
def sell_pass (s : GymState) (mid pid : ℕ) (today : Date) : GymState × SellResult :=
  if mid ∈ s.members then
    match findPlan s pid with
    | none => (s, SellResult.invalid)
    | some plan =>
        if has_active_pass s mid today then (s, SellResult.conflict)
        else createPass s mid plan today
  else (s, SellResult.invalid)

/-- The `passes_list` POST path (views.py lines 337–357) through
`SellPassForm` (forms.py lines 49–70): the member field accepts any member,
the plan field only plans with `is_active=True`, and `SellPassForm.clean`
rejects a member who already has an active pass; on a valid form the pass is
created as in `createPass`. -/
def passes_list_sell (s : GymState) (mid pid : ℕ) (today : Date) : GymState × SellResult :=
  if mid ∈ s.members then
    if has_active_pass s mid today then (s, SellResult.conflict)
    else
      match findPlan s pid with
      | none => (s, SellResult.invalid)
      | some plan =>
          if plan.is_active then createPass s mid plan today
          else (s, SellResult.invalid)
  else (s, SellResult.invalid)

/-- `plan_edit` saving a new price (views.py lines 78–97): updates the plan
row only; no pass row is touched. -/
def set_plan_price (s : GymState) (pid : ℕ) (newPrice : ℚ) : GymState :=
  { s with plans := s.plans.map (fun p => if p.id = pid then { p with price := newPrice } else p) }

/-- The member's open attendances of `today`
(`Attendance.objects.filter(member=member, checked_in_at__date=today,
checked_out_at__isnull=True)`), in the stored newest-first order. -/
def openToday (s : GymState) (mid : ℕ) (today : Date) : List Attendance :=
  s.attendances.filter (fun a =>
    a.member = mid ∧ a.checked_in_at.day = today ∧ a.checked_out_at = none)

/-- Outcome of a check-in attempt. -/
inductive CheckInResult where
  | success (a : Attendance)
  | alreadyCheckedIn
  | noActivePass
  | invalid
  deriving DecidableEq, Repr

/-- Shared creation step of both check-in paths:
`Attendance.objects.create(member=member, membership_pass=active_pass)` —
`checked_in_at` is server-assigned now, `checked_out_at` left null. -/
def createAttendance (s : GymState) (mid : ℕ) (ap : Pass) (now : DateTime) :
    GymState × CheckInResult :=
  let a : Attendance :=
    { id := s.nextAttId, member := mid, membership_pass := some ap.id
      checked_in_at := now, checked_out_at := none }
  ({ s with attendances := a :: s.attendances, nextAttId := s.nextAttId + 1 },
    CheckInResult.success a)

/-- The pk-based check-in view `check_in_member` (views.py lines 571–595):
errors when the member has no active pass; warns without creating a row when
an open attendance already exists today; otherwise creates an attendance
referencing the active pass. -/
def check_in_member (s : GymState) (mid : ℕ) (now : DateTime) : GymState × CheckInResult :=
  match get_active_pass s mid now.day with
  | none => (s, CheckInResult.noActivePass)
  | some ap =>
      if openToday s mid now.day ≠ [] then (s, CheckInResult.alreadyCheckedIn)
      else createAttendance s mid ap now

/-- The form-based check-in path of `attendance_list` (views.py lines
402–444) through `CheckInForm.clean_member` (forms.py lines 73–88): the form
rejects a member without an active pass; on a valid form the view re-reads
the active pass and creates an attendance unconditionally — it performs no
duplicate check. -/
def attendance_list_checkin (s : GymState) (mid : ℕ) (now : DateTime) :
    GymState × CheckInResult :=
  if mid ∈ s.members then
    match get_active_pass s mid now.day with
    | none => (s, CheckInResult.noActivePass)
    | some ap => createAttendance s mid ap now
  else (s, CheckInResult.invalid)

/-- Outcome of a check-out attempt. -/
inductive CheckOutResult where
  | success (a : Attendance)
  | notCheckedIn
  deriving DecidableEq, Repr

/-- `check_out_member` (views.py lines 598–617): takes `.last()` of the
member's open attendances of today — the queryset carries the model's
`-checked_in_at` default ordering, so `.last()` is the earliest check-in —
and sets its `checked_out_at` to now; errors, changing nothing, when there is
none. -/
def check_out_member (s : GymState) (mid : ℕ) (now : DateTime) : GymState × CheckOutResult :=
  match (openToday s mid now.day).getLast? with
  | none => (s, CheckOutResult.notCheckedIn)
  | some a =>
      let a' := { a with checked_out_at := some now }
      ({ s with attendances :=
          s.attendances.map (fun x => if x.id = a.id then { x with checked_out_at := some now } else x) },
        CheckOutResult.success a')

/-- The sweep at the top of `passes_list` (views.py lines 326–330):
`MembershipPass.objects.filter(end_date__lt=today, status='active')
.update(status='expired')`. -/
def sweep_expired (s : GymState) (today : Date) : GymState :=
  { s with passes := s.passes.map (fun p =>
      if p.end_date < today ∧ p.status = PassStatus.active then { p with status := PassStatus.expired }
      else p) }

/-- `get_expired_passes_count` (services.py lines 338–340): a plain count of
passes whose status is `'expired'`; it performs no sweep. -/
def get_expired_passes_count (s : GymState) : ℕ :=
  (s.passes.filter (fun p => p.status = PassStatus.expired)).length

/-- `get_active_passes_count` (services.py lines 329–336). -/
def get_active_passes_count (s : GymState) (today : Date) : ℕ :=
  (s.passes.filter (fun p =>
    p.status = PassStatus.active ∧ p.start_date ≤ today ∧ today ≤ p.end_date)).length

/-- `predict_churn` (services.py lines 292–321): with no attendance rows for
the member, returns `(95.0, 'Low')`; otherwise computes
`days_since_last_visit` from the most recent attendance (`.first()` under the
newest-first ordering) and applies the recency bands, clamping the
probability into `[1, 99]` at the end. -/
def predict_churn (s : GymState) (mid : ℕ) (now : DateTime) : ℚ × String :=
  match s.attendances.find? (fun a => a.member = mid) with
  | none => (95, "Low")
  | some last =>
      let d : ℤ := tdiffDays last.checked_in_at now
      let pr : ℚ × String :=
        if d ≤ 7 then ((90 : ℚ) - d * 2, "Low")
        else if d ≤ 14 then ((75 : ℚ) - (d - 7) * 3, "Medium")
        else if d ≤ 30 then ((50 : ℚ) - (d - 14) * 2, "High")
        else (10, "Critical")
      (max (min pr.1 99) 1, pr.2)

/-- Check-in count of a given hour of day, as grouped by
`annotate(hour=ExtractHour('checked_in_at')).values('hour').annotate(count=Count('id'))`. -/
def hourCount (s : GymState) (h : ℕ) : ℕ :=
  (s.attendances.filter (fun a => (a.checked_in_at.hour : ℕ) = h)).length

/-- The fold selecting a maximal-count hour, starting from a default
accumulator; keeps the first maximum encountered. -/
def peakFold (f : ℕ → ℕ) (l : List ℕ) (acc : ℕ × ℕ) : ℕ × ℕ :=
  l.foldl (fun acc h => if f h > acc.2 then (h, f h) else acc) acc

/-- `get_peak_hour` (services.py lines 348–357): the hour with the most
check-ins together with its count, or the default `(17, 0)` (5 PM) when no
attendance exists.  The source orders groups by descending count and takes
the first; its tie-break between equally frequent hours is unspecified (it
depends on the database sort), and this embedding resolves ties to the
smallest hour. -/
def get_peak_hour (s : GymState) : ℕ × ℕ :=
  peakFold (hourCount s) (List.range 24) (17, 0)

/-- One entry of the `expected_returns` list built by
`get_expected_returns_next_3_days`. -/
structure ReturnCandidate where
  member : ℕ
  last_visit : DateTime
  probability : ℚ
  deriving DecidableEq, Repr

/-- `get_expected_returns_next_3_days` (services.py lines 366–389): walks the
passes that are active and current today, looks up each owner's most recent
attendance, keeps those whose last visit was 1–4 days ago with a hard-coded
probability of 85, and returns the first 5 candidates. -/
def get_expected_returns_next_3_days (s : GymState) (now : DateTime) : List ReturnCandidate :=
  let today := now.day
  let activePasses := s.passes.filter (fun p =>
    p.status = PassStatus.active ∧ p.start_date ≤ today ∧ today ≤ p.end_date)
  let candidates := activePasses.filterMap (fun mp =>
    match s.attendances.find? (fun a => a.member = mp.member) with
    | none => none
    | some lastVisit =>
        let d := tdiffDays lastVisit.checked_in_at now
        if 1 ≤ d ∧ d ≤ 4 then
          some { member := mp.member, last_visit := lastVisit.checked_in_at, probability := (85 : ℚ) }
        else none)
  candidates.take 5

/-- Round half to even (Python's `round`) to an integer. -/
def roundHalfEven (x : ℚ) : ℤ :=
  let f := ⌊x⌋
  let r := x - f
  if r < 1/2 then f
  else if 1/2 < r then f + 1
  else if f % 2 = 0 then f else f + 1

/-- Python's `round(x, 2)`. -/
def round2 (x : ℚ) : ℚ :=
  (roundHalfEven (x * 100) : ℚ) / 100

/-- `FitnessService.calculate_bmi` (services.py lines 9–41): `None` when an
input is missing — or zero, since `not height_cm` is true for a zero
`Decimal` — or height is nonpositive; otherwise the BMI, rounded to two
decimals, with the category chosen by the source's band chain
(`< 18.5`, `18.5 ≤ bmi ≤ 24.9`, `25 ≤ bmi ≤ 29.9`, else). -/
def calculate_bmi (height_cm weight_kg : Option ℚ) : Option (ℚ × String) :=
  match height_cm, weight_kg with
  | some h, some w =>
      if h = 0 ∨ w = 0 then none
      else
        let height_m := h / 100
        if height_m ≤ 0 then none
        else
          let bmi := w / (height_m * height_m)
          let category :=
            if bmi < 18.5 then "Underweight"
            else if 18.5 ≤ bmi ∧ bmi ≤ 24.9 then "Normal"
            else if 25 ≤ bmi ∧ bmi ≤ 29.9 then "Overweight"
            else "Obese"
          some (round2 bmi, category)
  | _, _ => none

/-- Python's `round(x, 1)`. -/
def round1 (x : ℚ) : ℚ :=
  (roundHalfEven (x * 10) : ℚ) / 10

/-- Modelled from the spec (for comparison with `calculate_bmi` only): the
claim's *total* partition of the BMI range — below 18.5 Underweight, from
18.5 up to 25 (exclusive) Normal, from 25 up to 30 (exclusive) Overweight,
30 or above Obese. -/
def bmiCategorySpec (b : ℚ) : String :=
  if b < 18.5 then "Underweight"
  else if b < 25 then "Normal"
  else if b < 30 then "Overweight"
  else "Obese"

/-- Modelled from the spec (for comparison with
`get_expected_returns_next_3_days` only): the claim's weighted-count formula
`0.8 * count(probability >= 0.7) + 0.4 * count(0.4 <= probability < 0.7)`,
rounded to one decimal, over a list of member return probabilities. -/
def expectedReturnsSpec (probs : List ℚ) : ℚ :=
  round1 ((0.8 : ℚ) * (probs.filter (fun p => (0.7 : ℚ) ≤ p)).length
    + (0.4 : ℚ) * (probs.filter (fun p => (0.4 : ℚ) ≤ p ∧ p < (0.7 : ℚ))).length)

/-! ## Concrete states used by the witness and counterexample theorems -/

/-- A 30-day plan priced 500, pk 1. -/
def wPlan : Plan := { id := 1, name := "Monthly", duration_days := 30, price := 500, is_active := true }

/-- One plan, one member (pk 1), no passes, no attendances. -/
def wState : GymState :=
  { plans := [wPlan], members := [1], passes := [], attendances := [], nextPassId := 1, nextAttId := 1 }

/-- The pass produced by selling `wPlan` to member 1 on day 0. -/
def wPass : Pass :=
  { id := 1, member := 1, plan := 1, start_date := 0, end_date := 29, price_snapshot := 500,
    status := PassStatus.active }

/-- `wState` after that sale. -/
def wStateAfter : GymState :=
  { plans := [wPlan], members := [1], passes := [wPass], attendances := [], nextPassId := 2, nextAttId := 1 }

/-- 9:00 AM on day 0. -/
def wNow : DateTime := { day := 0, hour := 9, minute := 0 }

/-- An attendance of member 1 checked in at 9:00 AM ten days before `wNow`,
never checked out. -/
def wAtt : Attendance :=
  { id := 1, member := 1, membership_pass := none,
    checked_in_at := { day := -10, hour := 9, minute := 0 }, checked_out_at := none }

/-- One member whose single attendance is `wAtt` (ten days old). -/
def wChurnState : GymState :=
  { plans := [wPlan], members := [1], passes := [], attendances := [wAtt],
    nextPassId := 1, nextAttId := 2 }

/-- An open (no checkout) attendance of member 1 at 9:00 AM of day 0. -/
def wOpenAtt : Attendance :=
  { id := 1, member := 1, membership_pass := some 1,
    checked_in_at := { day := 0, hour := 9, minute := 0 }, checked_out_at := none }

/-- Member 1 holds the day-0–29 pass and is already checked in (open) today. -/
def wC4 : GymState :=
  { plans := [wPlan], members := [1], passes := [wPass], attendances := [wOpenAtt],
    nextPassId := 2, nextAttId := 2 }

/-- 10:00 AM on day 0. -/
def wNow10 : DateTime := { day := 0, hour := 10, minute := 0 }

/-- An open attendance of member 1 checked in at 9:00 AM of day 0. -/
def wAtt9 : Attendance :=
  { id := 1, member := 1, membership_pass := some 1,
    checked_in_at := { day := 0, hour := 9, minute := 0 }, checked_out_at := none }

/-- A second open attendance of member 1, checked in later, at 10:00 AM of
day 0. -/
def wAtt10 : Attendance :=
  { id := 2, member := 1, membership_pass := some 1,
    checked_in_at := { day := 0, hour := 10, minute := 0 }, checked_out_at := none }

/-- Member 1 with two open attendances today, newest first. -/
def wC5 : GymState :=
  { plans := [wPlan], members := [1], passes := [wPass], attendances := [wAtt10, wAtt9],
    nextPassId := 2, nextAttId := 3 }

/-- Noon on day 0. -/
def wNoon : DateTime := { day := 0, hour := 12, minute := 0 }

/-- An attendance of member 1 two days before day 0. -/
def wVisit : Attendance :=
  { id := 1, member := 1, membership_pass := some 1,
    checked_in_at := { day := -2, hour := 9, minute := 0 }, checked_out_at := none }

/-- Member 1 holds the current day-0–29 pass and last visited two days ago. -/
def wC9 : GymState :=
  { plans := [wPlan], members := [1], passes := [wPass], attendances := [wVisit],
    nextPassId := 2, nextAttId := 2 }

/-- A pass still marked active although its end date (day −1) is past. -/
def pStale : Pass :=
  { id := 1, member := 1, plan := 1, start_date := -10, end_date := -1,
    price_snapshot := 500, status := PassStatus.active }

/-- A state whose only pass is `pStale`: nothing has swept it yet. -/
def wC6 : GymState :=
  { plans := [wPlan], members := [1], passes := [pStale], attendances := [],
    nextPassId := 2, nextAttId := 1 }

/-! ## Helper lemmas -/

/-- The last element of a list is a member. -/
theorem mem_of_getLast?_eq {α : Type} {l : List α} {a : α} (h : l.getLast? = some a) : a ∈ l := by
  rcases l with _ | ⟨x, xs⟩
  · simp at h
  · rw [List.getLast?_eq_getLast _ (by simp)] at h
    exact (Option.some_inj.mp h) ▸ List.getLast_mem _

/-- In a `Pairwise R` list, every element either is the last element or is
`R`-related to it. -/
theorem pairwise_rel_getLast {α : Type} {R : α → α → Prop} :
    ∀ {l : List α}, l.Pairwise R → ∀ {a : α}, l.getLast? = some a → ∀ b ∈ l, b = a ∨ R b a := by
  intro l
  induction l with
  | nil => intro _ a ha; simp at ha
  | cons x xs ih =>
      intro hp a ha b hb
      rcases xs with _ | ⟨y, ys⟩
      · simp at ha hb
        subst ha; subst hb; exact Or.inl rfl
      · rw [List.getLast?_cons_cons] at ha
        rcases List.mem_cons.mp hb with rfl | hb2
        · right
          exact (List.pairwise_cons.mp hp).1 a (mem_of_getLast?_eq ha)
        · exact ih (List.pairwise_cons.mp hp).2 ha b hb2

/-! ## Claims -/

/-- **C1.** For every plan and start date, a pass sold through either sale
path (the `sell_pass` endpoint or the `passes_list` form) starts at the sale
date `today`, ends at `today + (duration_days - 1)`, snapshots the plan's
price as of the sale, is created active and is the one row added; and a
later change of the plan's price (`set_plan_price`) leaves the pass rows —
hence every existing snapshot — untouched. -/
theorem sold_pass_end_date_and_price_snapshot
    (s : GymState) (mid pid : ℕ) (today : Date) (plan : Plan)
    (s' : GymState) (p : Pass)
    (hplan : findPlan s pid = some plan)
    (hsell : sell_pass s mid pid today = (s', SellResult.success p) ∨
      passes_list_sell s mid pid today = (s', SellResult.success p)) :
    p.start_date = today ∧
    p.end_date = today + (plan.duration_days - 1) ∧
    p.price_snapshot = plan.price ∧
    p.status = PassStatus.active ∧
    s'.passes = p :: s.passes ∧
    ∀ (pid2 : ℕ) (price2 : ℚ), (set_plan_price s' pid2 price2).passes = s'.passes := by
  rcases hsell with h | h
  · by_cases hm : mid ∈ s.members
    · by_cases hap : has_active_pass s mid today = true
      · simp [sell_pass, hm, hplan, hap] at h
      · simp [sell_pass, hm, hplan, hap, createPass, membershipPassSave] at h
        obtain ⟨hs, hp⟩ := h
        subst hp
        exact ⟨rfl, rfl, rfl, rfl, by rw [← hs], fun _ _ => rfl⟩
    · simp [sell_pass, hm] at h
  · by_cases hm : mid ∈ s.members
    · by_cases hap : has_active_pass s mid today = true
      · simp [passes_list_sell, hm, hplan, hap] at h
      · by_cases hact : plan.is_active
        · simp [passes_list_sell, hm, hplan, hap, hact, createPass, membershipPassSave] at h
          obtain ⟨hs, hp⟩ := h
          subst hp
          exact ⟨rfl, rfl, rfl, rfl, by rw [← hs], fun _ _ => rfl⟩
        · simp [passes_list_sell, hm, hplan, hap, hact] at h
    · simp [passes_list_sell, hm] at h

/-- Witness for C1: selling the 30-day, 500-priced plan to member 1 on day 0
yields a pass running day 0 through day 29 with snapshot 500. -/
theorem sold_pass_end_date_and_price_snapshot_witness :
    wPass.start_date = 0 ∧
    wPass.end_date = 0 + (wPlan.duration_days - 1) ∧
    wPass.price_snapshot = wPlan.price ∧
    wPass.status = PassStatus.active ∧
    wStateAfter.passes = wPass :: wState.passes ∧
    ∀ (pid2 : ℕ) (price2 : ℚ), (set_plan_price wStateAfter pid2 price2).passes = wStateAfter.passes :=
  sold_pass_end_date_and_price_snapshot wState 1 1 0 wPlan wStateAfter wPass rfl (Or.inl rfl)

/-- **C2.** When a member already holds a pass that is active and whose date
range contains today, both sale paths — the `sell_pass` endpoint (given the
requested plan exists; a request naming a nonexistent plan 404s before the
conflict check) and the `passes_list` form — report the conflict and return
the state unchanged: no `MembershipPass` row is created. -/
theorem second_sale_conflict (s : GymState) (mid pid : ℕ) (today : Date)
    (hm : mid ∈ s.members)
    (hheld : ∃ p ∈ s.passes, p.member = mid ∧ p.status = PassStatus.active ∧
      p.start_date ≤ today ∧ today ≤ p.end_date) :
    (∀ plan, findPlan s pid = some plan → sell_pass s mid pid today = (s, SellResult.conflict)) ∧
    passes_list_sell s mid pid today = (s, SellResult.conflict) := by
  have hap : has_active_pass s mid today = true := by
    obtain ⟨p, hmem, h1, h2, h3, h4⟩ := hheld
    rw [has_active_pass, Option.isSome_iff_exists]
    rcases hfind : get_active_pass s mid today with _ | q
    · rw [get_active_pass, List.find?_eq_none] at hfind
      exact absurd (by simp [h1, h2, h3, h4]) (hfind p hmem)
    · exact ⟨q, rfl⟩
  constructor
  · intro plan hplan
    simp [sell_pass, hm, hplan, hap]
  · simp [passes_list_sell, hm, hap]

/-- Witness for C2: member 1 of `wStateAfter` holds the day-0–29 pass, so a
second sale on day 0 through either path conflicts and leaves the state as
it was. -/
theorem second_sale_conflict_witness :
    sell_pass wStateAfter 1 1 0 = (wStateAfter, SellResult.conflict) ∧
    passes_list_sell wStateAfter 1 1 0 = (wStateAfter, SellResult.conflict) := by
  have h := second_sale_conflict wStateAfter 1 1 0 (by decide)
    ⟨wPass, by simp [wStateAfter], by decide, by decide, by decide, by decide⟩
  exact ⟨h.1 wPlan rfl, h.2⟩

/-- **C3, counterexample.** For member 1 of `wState`, who has zero attendance
rows, `predict_churn` returns the pair `(95.0, 'Low')`: the probability is
`95` on a percentage scale, not the claimed `0.95`. -/
theorem predict_churn_scale_counterexample :
    predict_churn wState 1 wNow = (95, "Low") ∧ ((95 : ℚ) ≠ 0.95) :=
  ⟨rfl, by norm_num⟩

/-- **C3, amended.** For every member with zero recorded attendance rows,
`predict_churn` returns probability `95.0` — on the 0–100 percentage scale,
not `0.95` — and risk level `"Low"`, regardless of any other member state. -/
theorem predict_churn_new_member (s : GymState) (mid : ℕ) (now : DateTime)
    (hnone : ∀ a ∈ s.attendances, a.member ≠ mid) :
    predict_churn s mid now = (95, "Low") := by
  rw [predict_churn, List.find?_eq_none.mpr]
  intro a ha
  simpa using hnone a ha

/-- Witness for amended C3: member 1 of `wState` has no attendance and gets
`(95, "Low")`. -/
theorem predict_churn_new_member_witness :
    predict_churn wState 1 wNow = (95, "Low") :=
  predict_churn_new_member wState 1 wNow (by simp [wState])

/-- **C10.** `predict_churn` always returns a percentage-scale probability —
exactly `95` for a member with no attendance, otherwise a value clamped into
`[1, 99]` — and a risk label among `"Low"`, `"Medium"`, `"High"`,
`"Critical"` determined by days since the last visit (`≤ 7` Low, 8–14
Medium, 15–30 High, over 30 Critical); it is never a `[0, 1]` probability. -/
theorem predict_churn_percent_scale (s : GymState) (mid : ℕ) (now : DateTime) :
    (1 ≤ (predict_churn s mid now).1 ∧ (predict_churn s mid now).1 ≤ 99) ∧
    ((predict_churn s mid now).2 = "Low" ∨ (predict_churn s mid now).2 = "Medium" ∨
      (predict_churn s mid now).2 = "High" ∨ (predict_churn s mid now).2 = "Critical") ∧
    (s.attendances.find? (fun a => a.member = mid) = none →
      predict_churn s mid now = (95, "Low")) ∧
    (∀ a, s.attendances.find? (fun x => x.member = mid) = some a →
      (tdiffDays a.checked_in_at now ≤ 7 → (predict_churn s mid now).2 = "Low") ∧
      (8 ≤ tdiffDays a.checked_in_at now → tdiffDays a.checked_in_at now ≤ 14 →
        (predict_churn s mid now).2 = "Medium") ∧
      (15 ≤ tdiffDays a.checked_in_at now → tdiffDays a.checked_in_at now ≤ 30 →
        (predict_churn s mid now).2 = "High") ∧
      (31 ≤ tdiffDays a.checked_in_at now → (predict_churn s mid now).2 = "Critical")) := by
  rcases hf : s.attendances.find? (fun a => a.member = mid) with _ | a
  · rw [predict_churn, hf]
    refine ⟨⟨by norm_num, by norm_num⟩, Or.inl rfl, fun _ => rfl, fun a ha => by simp_all⟩
  · rw [predict_churn, hf]
    set d : ℤ := tdiffDays a.checked_in_at now with hd
    constructor
    · constructor
      · exact le_max_right _ _
      · exact max_le (min_le_right _ _) (by norm_num)
    constructor
    · by_cases h7 : d ≤ 7
      · left; simp [h7]
      · by_cases h14 : d ≤ 14
        · right; left; simp [h7, h14]
        · by_cases h30 : d ≤ 30
          · right; right; left; simp [h7, h14, h30]
          · right; right; right; simp [h7, h14, h30]
    constructor
    · intro h; simp at h
    · intro b hb
      have hab : b = a := (Option.some_inj.mp hb).symm
      subst hab
      refine ⟨fun h7 => by simp [← hd, h7], fun h8 h14 => ?_, fun h15 h30 => ?_, fun h31 => ?_⟩
      · have h7 : ¬ d ≤ 7 := by omega
        simp [← hd, h7, h14]
      · have h7 : ¬ d ≤ 7 := by omega
        have h14 : ¬ d ≤ 14 := by omega
        simp [← hd, h7, h14, h30]
      · have h7 : ¬ d ≤ 7 := by omega
        have h14 : ¬ d ≤ 14 := by omega
        have h30 : ¬ d ≤ 30 := by omega
        simp [← hd, h7, h14, h30]

/-- Witness for C10: member 1 of `wChurnState` last visited 10 days ago, so
the probability is clamped into `[1, 99]` and the risk label is
`"Medium"`. -/
theorem predict_churn_percent_scale_witness :
    (1 ≤ (predict_churn wChurnState 1 wNow).1 ∧ (predict_churn wChurnState 1 wNow).1 ≤ 99) ∧
    (predict_churn wChurnState 1 wNow).2 = "Medium" := by
  have h := predict_churn_percent_scale wChurnState 1 wNow
  refine ⟨h.1, ?_⟩
  exact (h.2.2.2 wAtt rfl).2.1 (by decide) (by decide)

/-- **C4, counterexample.** Member 1 of `wC4` has a valid pass and an open
attendance for today, yet the form-based check-in path of `attendance_list`
creates a second `Attendance` row instead of flagging a duplicate — the
claim's "through any check-in path" fails on this path. -/
theorem form_checkin_duplicate_counterexample :
    openToday wC4 1 0 = [wOpenAtt] ∧
    (attendance_list_checkin wC4 1 wNow10).1.attendances =
      [{ id := 2, member := 1, membership_pass := some 1, checked_in_at := wNow10,
         checked_out_at := none }, wOpenAtt] ∧
    (attendance_list_checkin wC4 1 wNow10).1.attendances.length = 2 :=
  ⟨rfl, rfl, rfl⟩

/-- **C4, amended.** For a member with a valid pass, the pk-based check-in
path (`check_in_member`) flags a duplicate — leaving the state unchanged —
when an open attendance exists today, and otherwise creates exactly one
`Attendance` row referencing the member's active pass; the form-based path
(`attendance_list`) only validates the pass and creates a row
unconditionally, performing no duplicate check.  Without a valid pass both
paths fail creating nothing. -/
theorem check_in_duplicate_handling (s : GymState) (mid : ℕ) (now : DateTime) :
    (get_active_pass s mid now.day = none →
      check_in_member s mid now = (s, CheckInResult.noActivePass) ∧
      (mid ∈ s.members → attendance_list_checkin s mid now = (s, CheckInResult.noActivePass))) ∧
    (∀ ap, get_active_pass s mid now.day = some ap →
      (openToday s mid now.day ≠ [] → check_in_member s mid now = (s, CheckInResult.alreadyCheckedIn)) ∧
      (openToday s mid now.day = [] →
        ∃ a, a.member = mid ∧ a.membership_pass = some ap.id ∧ a.checked_in_at = now ∧
          a.checked_out_at = none ∧
          check_in_member s mid now =
            ({ s with attendances := a :: s.attendances, nextAttId := s.nextAttId + 1 },
              CheckInResult.success a)) ∧
      (mid ∈ s.members →
        ∃ a, a.member = mid ∧ a.membership_pass = some ap.id ∧ a.checked_in_at = now ∧
          a.checked_out_at = none ∧
          attendance_list_checkin s mid now =
            ({ s with attendances := a :: s.attendances, nextAttId := s.nextAttId + 1 },
              CheckInResult.success a))) := by
  constructor
  · intro hnone
    refine ⟨by simp [check_in_member, hnone], fun hm => by simp [attendance_list_checkin, hm, hnone]⟩
  · intro ap hap
    refine ⟨fun hopen => ?_, fun hopen => ?_, fun hm => ?_⟩
    · simp [check_in_member, hap, hopen]
    · refine ⟨⟨s.nextAttId, mid, some ap.id, now, none⟩, rfl, rfl, rfl, rfl, ?_⟩
      simp [check_in_member, hap, hopen, createAttendance]
    · refine ⟨⟨s.nextAttId, mid, some ap.id, now, none⟩, rfl, rfl, rfl, rfl, ?_⟩
      simp [attendance_list_checkin, hm, hap, createAttendance]

/-- Witness for amended C4: the pk-based path flags member 1 of `wC4` as
already checked in and creates no row. -/
theorem check_in_duplicate_handling_witness :
    check_in_member wC4 1 wNow10 = (wC4, CheckInResult.alreadyCheckedIn) :=
  ((check_in_duplicate_handling wC4 1 wNow10).2 wPass rfl).1 (by decide)

/-- **C5, counterexample.** Member 1 of `wC5` has two open attendances today
(9 AM and 10 AM, stored newest-first); check-out stamps the 9 AM one — the
`.last()` of the descending-ordered queryset, i.e. the **earliest** — and
leaves the most recent (10 AM) untouched, contradicting the claim that the
most recent open attendance is stamped. -/
theorem check_out_most_recent_counterexample :
    wAtt9.checked_in_at.totalMinutes < wAtt10.checked_in_at.totalMinutes ∧
    openToday wC5 1 0 = [wAtt10, wAtt9] ∧
    check_out_member wC5 1 wNoon =
      ({ plans := [wPlan], members := [1], passes := [wPass],
         attendances := [wAtt10, { wAtt9 with checked_out_at := some wNoon }],
         nextPassId := 2, nextAttId := 3 },
        CheckOutResult.success { wAtt9 with checked_out_at := some wNoon }) ∧
    wAtt10.checked_out_at = none :=
  ⟨by decide, rfl, rfl, rfl⟩

/-- **C5, amended.** For every member, check-out sets the checkout timestamp
to now on the member's **earliest** open attendance of today (the source
takes `.last()` of a queryset ordered by check-in descending), updating only
that row, and fails — leaving all `Attendance` rows unchanged — when the
member has no open attendance today. -/
theorem check_out_updates_earliest (s : GymState) (mid : ℕ) (now : DateTime)
    (hsorted : s.attendances.Pairwise
      (fun a b => b.checked_in_at.totalMinutes ≤ a.checked_in_at.totalMinutes)) :
    (openToday s mid now.day = [] → check_out_member s mid now = (s, CheckOutResult.notCheckedIn)) ∧
    (openToday s mid now.day ≠ [] →
      ∃ a, (openToday s mid now.day).getLast? = some a ∧
        a.member = mid ∧ a.checked_in_at.day = now.day ∧ a.checked_out_at = none ∧
        (∀ b ∈ openToday s mid now.day, a.checked_in_at.totalMinutes ≤ b.checked_in_at.totalMinutes) ∧
        check_out_member s mid now =
          ({ s with attendances := s.attendances.map (fun x =>
              if x.id = a.id then { x with checked_out_at := some now } else x) },
            CheckOutResult.success { a with checked_out_at := some now })) := by
  constructor
  · intro hempty
    rw [check_out_member, hempty]
    rfl
  · intro hne
    rcases ha : (openToday s mid now.day).getLast? with _ | a
    · rw [List.getLast?_eq_none_iff] at ha
      exact absurd ha hne
    · have hmem : a ∈ openToday s mid now.day := mem_of_getLast?_eq ha
      have hprops := List.mem_filter.mp hmem
      have hpw : (openToday s mid now.day).Pairwise
          (fun a b => b.checked_in_at.totalMinutes ≤ a.checked_in_at.totalMinutes) :=
        hsorted.sublist (List.filter_sublist _)
      refine ⟨a, rfl, ?_, ?_, ?_, ?_, ?_⟩
      · have := hprops.2; simp at this; exact this.1
      · have := hprops.2; simp at this; exact this.2.1
      · have := hprops.2; simp at this; exact this.2.2
      · intro b hb
        rcases pairwise_rel_getLast hpw ha b hb with rfl | h
        · exact le_refl _
        · exact h
      · rw [check_out_member, ha]

/-- Witness for amended C5: on `wC5` the stamped row is `wAtt9`, whose
check-in time is minimal among the open attendances. -/
theorem check_out_updates_earliest_witness :
    check_out_member wC5 1 wNoon =
      ({ wC5 with attendances := wC5.attendances.map (fun x =>
          if x.id = wAtt9.id then { x with checked_out_at := some wNoon } else x) },
        CheckOutResult.success { wAtt9 with checked_out_at := some wNoon }) ∧
    wAtt9.checked_in_at.totalMinutes ≤ wAtt10.checked_in_at.totalMinutes := by
  have h := (check_out_updates_earliest wC5 1 wNoon (by decide)).2 (by decide)
  obtain ⟨a, ha, _, _, _, hmin, heq⟩ := h
  have haa : a = wAtt9 := by
    have h9 : (openToday wC5 1 wNoon.day).getLast? = some wAtt9 := by decide
    rw [h9] at ha
    exact (Option.some_inj.mp ha).symm
  subst haa
  exact ⟨heq, hmin wAtt10 (by decide)⟩

/-- **C6, counterexample.** In `wC6` the only pass is active with
`end_date = -1 < today = 0`, yet `get_expired_passes_count` returns `0`: the
count performs no sweep (the sweep lives only in the `passes_list` view),
so a caller — e.g. the dashboard, which calls the count directly — observes
a stale count omitting passes past their end date.  After an explicit sweep
the count would be `1`. -/
theorem expired_count_stale_counterexample :
    pStale.status = PassStatus.active ∧ pStale.end_date < 0 ∧ pStale ∈ wC6.passes ∧
    get_expired_passes_count wC6 = 0 ∧
    get_expired_passes_count (sweep_expired wC6 0) = 1 :=
  ⟨rfl, by decide, by decide, rfl, rfl⟩

/-- Counting expired passes after the sweep counts exactly the passes that
were already expired or past their end date. -/
theorem sweep_count_aux (today : Date) : ∀ l : List Pass,
    ((l.map (fun p => if p.end_date < today ∧ p.status = PassStatus.active
        then { p with status := PassStatus.expired } else p)).filter
      (fun p => p.status = PassStatus.expired)).length =
    (l.filter (fun p => p.status = PassStatus.expired ∨ p.end_date < today)).length := by
  intro l
  induction l with
  | nil => rfl
  | cons p t ih =>
      by_cases hlt : p.end_date < today
      · cases hst : p.status
        · simp [hlt, hst, ih]
        · simp [hlt, hst, ih]
      · cases hst : p.status
        · simp [hlt, hst, ih]
        · simp [hlt, hst, ih]

/-- **C6, amended.** `get_expired_passes_count` returns the count of passes
whose stored status is expired, without sweeping; it is the `passes_list`
view that first sweeps every active pass past its end date to expired.
After that sweep the expired count covers exactly the passes already expired
or past their end date, no active pass past its end date remains, the sweep
is idempotent, and the count never decreases — but a caller reading the
count without the view's sweep (as the dashboard does) can observe a stale
count. -/
theorem expired_count_sweep (s : GymState) (today : Date) :
    get_expired_passes_count (sweep_expired s today) =
      (s.passes.filter (fun p => p.status = PassStatus.expired ∨ p.end_date < today)).length ∧
    sweep_expired (sweep_expired s today) today = sweep_expired s today ∧
    (∀ p ∈ (sweep_expired s today).passes, p.status = PassStatus.active → today ≤ p.end_date) ∧
    get_expired_passes_count s ≤ get_expired_passes_count (sweep_expired s today) := by
  refine ⟨sweep_count_aux today s.passes, ?_, ?_, ?_⟩
  · have hmap : ∀ l : List Pass,
        (l.map (fun p => if p.end_date < today ∧ p.status = PassStatus.active
          then { p with status := PassStatus.expired } else p)).map
          (fun p => if p.end_date < today ∧ p.status = PassStatus.active
            then { p with status := PassStatus.expired } else p) =
        l.map (fun p => if p.end_date < today ∧ p.status = PassStatus.active
          then { p with status := PassStatus.expired } else p) := by
      intro l
      rw [List.map_map]
      refine List.map_congr_left (fun p _ => ?_)
      by_cases h : p.end_date < today ∧ p.status = PassStatus.active
      · simp [h]
      · simp [h]
    show GymState.mk _ _ _ _ _ _ = GymState.mk _ _ _ _ _ _
    simp [sweep_expired, hmap]
  · intro p hp hact
    rw [sweep_expired] at hp
    simp only [List.mem_map] at hp
    obtain ⟨q, _, hq⟩ := hp
    by_cases h : q.end_date < today ∧ q.status = PassStatus.active
    · rw [if_pos h] at hq
      rw [← hq] at hact
      simp at hact
    · rw [if_neg h] at hq
      subst hq
      rcases not_and_or.mp h with h1 | h2
      · exact le_of_not_lt h1
      · exact absurd hact h2
  · have key : get_expired_passes_count (sweep_expired s today) =
        (s.passes.filter (fun p => p.status = PassStatus.expired ∨ p.end_date < today)).length :=
      sweep_count_aux today s.passes
    rw [key, get_expired_passes_count, ← List.countP_eq_length_filter, ← List.countP_eq_length_filter]
    exact List.countP_mono_left (fun a _ hp => by simp_all)

/-- Witness for amended C6: sweeping `wC6` on day 0 turns the stale pass
expired, the count then reads 1, and sweeping again changes nothing. -/
theorem expired_count_sweep_witness :
    get_expired_passes_count (sweep_expired wC6 0) = 1 ∧
    sweep_expired (sweep_expired wC6 0) 0 = sweep_expired wC6 0 := by
  have h := expired_count_sweep wC6 0
  exact ⟨by rw [h.1]; rfl, h.2.1⟩

/-- On a suffix of the hour list, the best-so-far count never decreases. -/
theorem peakFold_acc_le (f : ℕ → ℕ) : ∀ (l : List ℕ) (acc : ℕ × ℕ), acc.2 ≤ (peakFold f l acc).2 := by
  intro l
  induction l with
  | nil => intro acc; exact le_refl _
  | cons h t ih =>
      intro acc
      rw [peakFold, List.foldl_cons]
      by_cases hgt : f h > acc.2
      · calc acc.2 ≤ f h := le_of_lt hgt
          _ = ((h, f h) : ℕ × ℕ).2 := rfl
          _ ≤ _ := by rw [if_pos hgt]; exact ih _
      · rw [if_neg hgt]; exact ih acc

/-- The fold's final count dominates the count of every listed hour. -/
theorem peakFold_ge (f : ℕ → ℕ) : ∀ (l : List ℕ) (acc : ℕ × ℕ), ∀ h ∈ l, f h ≤ (peakFold f l acc).2 := by
  intro l
  induction l with
  | nil => intro acc h hh; simp at hh
  | cons x t ih =>
      intro acc h hh
      rw [peakFold, List.foldl_cons]
      rcases List.mem_cons.mp hh with rfl | hmem
      · by_cases hgt : f h > acc.2
        · rw [if_pos hgt]
          exact peakFold_acc_le f t (h, f h)
        · rw [if_neg hgt]
          exact le_trans (le_of_not_lt hgt) (peakFold_acc_le f t acc)
      · by_cases hgt : f x > acc.2
        · rw [if_pos hgt]; exact ih _ h hmem
        · rw [if_neg hgt]; exact ih _ h hmem

/-- The fold either keeps its initial accumulator or ends on a listed hour
paired with that hour's own count. -/
theorem peakFold_cases (f : ℕ → ℕ) : ∀ (l : List ℕ) (acc : ℕ × ℕ),
    peakFold f l acc = acc ∨
    ((peakFold f l acc).1 ∈ l ∧ (peakFold f l acc).2 = f (peakFold f l acc).1) := by
  intro l
  induction l with
  | nil => intro acc; exact Or.inl rfl
  | cons x t ih =>
      intro acc
      rw [peakFold, List.foldl_cons]
      by_cases hgt : f x > acc.2
      · rw [if_pos hgt]
        rcases ih (x, f x) with heq | ⟨hm, he⟩
        · right
          rw [show (List.foldl (fun acc h => if f h > acc.2 then (h, f h) else acc) (x, f x) t) = peakFold f t (x, f x) from rfl, heq]
          exact ⟨List.mem_cons_self x t, rfl⟩
        · right
          exact ⟨List.mem_cons_of_mem x hm, he⟩
      · rw [if_neg hgt]
        rcases ih acc with heq | ⟨hm, he⟩
        · exact Or.inl heq
        · exact Or.inr ⟨List.mem_cons_of_mem x hm, he⟩

/-- With all counts zero the fold returns its accumulator unchanged. -/
theorem peakFold_const_zero (f : ℕ → ℕ) : ∀ (l : List ℕ) (acc : ℕ × ℕ),
    (∀ h ∈ l, f h = 0) → peakFold f l acc = acc := by
  intro l
  induction l with
  | nil => intro acc _; rfl
  | cons x t ih =>
      intro acc hz
      rw [peakFold, List.foldl_cons]
      have hx : f x = 0 := hz x (List.mem_cons_self x t)
      rw [if_neg (by rw [hx]; exact Nat.not_lt_zero _)]
      exact ih acc (fun h hh => hz h (List.mem_cons_of_mem x hh))

/-- No check-in is recorded at an hour number 24 or larger. -/
theorem hourCount_zero_of_big (s : GymState) (h : ℕ) (h24 : 24 ≤ h) : hourCount s h = 0 := by
  rw [hourCount, List.length_eq_zero, List.filter_eq_nil_iff]
  intro a _
  simp only [decide_eq_true_eq]
  intro heq
  exact absurd (heq ▸ a.checked_in_at.hour.isLt) (by omega)

/-- **C7, counterexample.** With no attendance rows, `get_peak_hour` returns
`(17, 0)` — hour 17 (5 PM) with count 0.  The hour component is an actual
hour-of-day value (`17 < 24`), the source's hard-coded default, not a
distinguished "no data" sentinel outside the hour range. -/
theorem peak_hour_default_counterexample :
    wState.attendances = [] ∧
    get_peak_hour wState = (17, 0) ∧
    (get_peak_hour wState).1 < 24 :=
  ⟨rfl, rfl, by decide⟩

/-- **C7, amended.** When no attendance exists `get_peak_hour` returns the
default `(17, 0)` (5 PM, count 0) rather than a sentinel; when at least one
attendance exists it returns an hour in 0–23 achieving the maximal check-in
count (which is then at least 1). -/
theorem peak_hour_default_or_max (s : GymState) :
    (s.attendances = [] → get_peak_hour s = (17, 0)) ∧
    (s.attendances ≠ [] →
      (get_peak_hour s).1 < 24 ∧
      (get_peak_hour s).2 = hourCount s (get_peak_hour s).1 ∧
      1 ≤ (get_peak_hour s).2 ∧
      ∀ h : ℕ, hourCount s h ≤ (get_peak_hour s).2) := by
  constructor
  · intro hempty
    rw [get_peak_hour]
    exact peakFold_const_zero _ _ _ (fun h _ => by rw [hourCount, hempty]; rfl)
  · intro hne
    rcases hs : s.attendances with _ | ⟨a, rest⟩
    · exact absurd hs hne
    · set h0 : ℕ := (a.checked_in_at.hour : ℕ) with hh0
      have hmem0 : h0 ∈ List.range 24 := List.mem_range.mpr a.checked_in_at.hour.isLt
      have hcnt0 : 1 ≤ hourCount s h0 := by
        rw [hourCount, hs]
        have hmm : a ∈ List.filter (fun x => decide ((x.checked_in_at.hour : ℕ) = h0)) (a :: rest) :=
          List.mem_filter.mpr ⟨List.mem_cons_self a rest, by simp⟩
        exact List.length_pos.mpr (List.ne_nil_of_mem hmm)
      have hge : 1 ≤ (get_peak_hour s).2 :=
        le_trans hcnt0 (peakFold_ge (hourCount s) (List.range 24) (17, 0) h0 hmem0)
      rcases peakFold_cases (hourCount s) (List.range 24) (17, 0) with heq | ⟨hm, he⟩
      · rw [get_peak_hour] at hge ⊢
        rw [heq] at hge
        exact absurd hge (by norm_num)
      · refine ⟨List.mem_range.mp hm, he, hge, fun h => ?_⟩
        by_cases h24 : h < 24
        · exact peakFold_ge (hourCount s) (List.range 24) (17, 0) h (List.mem_range.mpr h24)
        · rw [hourCount_zero_of_big s h (le_of_not_lt h24)]
          exact Nat.zero_le _

/-- Witness for amended C7: `wChurnState` has one attendance (at 9 AM), so
the returned peak hour is a real hour with a count of at least 1 dominating
every other hour's count. -/
theorem peak_hour_default_or_max_witness :
    (get_peak_hour wChurnState).1 < 24 ∧ 1 ≤ (get_peak_hour wChurnState).2 ∧
    hourCount wChurnState 17 ≤ (get_peak_hour wChurnState).2 := by
  have h := (peak_hour_default_or_max wChurnState).2 (by decide)
  exact ⟨h.1, h.2.2.1, h.2.2.2 17⟩

/-- `roundHalfEven` moves its argument by at most one half. -/
theorem roundHalfEven_close (x : ℚ) : |(roundHalfEven x : ℚ) - x| ≤ 1/2 := by
  rw [roundHalfEven]
  have h0 : ((⌊x⌋ : ℤ) : ℚ) ≤ x := Int.floor_le x
  have h1 : x < (⌊x⌋ : ℚ) + 1 := Int.lt_floor_add_one x
  by_cases hr : x - (⌊x⌋ : ℚ) < 1/2
  · rw [if_pos hr, abs_le]
    constructor <;> linarith
  · rw [if_neg hr]
    by_cases hr2 : (1:ℚ)/2 < x - (⌊x⌋ : ℚ)
    · rw [if_pos hr2]
      push_cast
      rw [abs_le]
      constructor <;> linarith
    · rw [if_neg hr2]
      have heq : x - (⌊x⌋ : ℚ) = 1/2 := le_antisymm (not_lt.mp hr2) (not_lt.mp hr)
      by_cases hev : ⌊x⌋ % 2 = 0
      · rw [if_pos hev, abs_le]
        constructor <;> linarith
      · rw [if_neg hev]
        push_cast
        rw [abs_le]
        constructor <;> linarith

/-- Rounding to two decimals moves a value by at most `1/200`. -/
theorem round2_close (y : ℚ) : |round2 y - y| ≤ 1/200 := by
  rw [round2]
  have h := roundHalfEven_close (y * 100)
  have heq : (roundHalfEven (y * 100) : ℚ) / 100 - y = ((roundHalfEven (y * 100) : ℚ) - y * 100) / 100 := by
    ring
  rw [heq, abs_div, abs_of_pos (by norm_num : (0:ℚ) < 100)]
  linarith

/-- **C8, counterexample.** At height 200 cm and weight 99.8 kg the BMI is
exactly 24.95, inside the gap `(24.9, 25)` of the source's band chain: the
code categorises it `"Obese"`, while the claim's total partition (18.5
inclusive to 25 exclusive is Normal) prescribes `"Normal"`. -/
theorem bmi_band_gap_counterexample :
    calculate_bmi (some 200) (some (99.8 : ℚ)) = some (24.95, "Obese") ∧
    bmiCategorySpec ((99.8 : ℚ) / (200 / 100 * (200 / 100))) = "Normal" ∧
    ("Obese" : String) ≠ "Normal" := by
  refine ⟨by norm_num [calculate_bmi, round2, roundHalfEven], ?_, by decide⟩
  rw [bmiCategorySpec]
  norm_num

/-- **C8, amended.** For height > 0 and weight present and nonzero (a zero
input is falsy in the source and yields `None`), `calculate_bmi` returns the
BMI rounded to two decimals (within `1/200` of the exact value) and a
category given by the source's gapped bands — below 18.5 Underweight,
`[18.5, 24.9]` Normal, `[25, 29.9]` Overweight, and Obese otherwise,
including the gaps `(24.9, 25)` and `(29.9, 30)`; in particular `(175, 70)`
yields value 22.86 with category `"Normal"`, and a missing input yields
`None`. -/
theorem calculate_bmi_bands (h w : ℚ) (hh : 0 < h) (hw : w ≠ 0) :
    (∃ v c, calculate_bmi (some h) (some w) = some (v, c) ∧
      |v - w / (h / 100 * (h / 100))| ≤ 1/200 ∧
      (c = "Underweight" ↔ w / (h / 100 * (h / 100)) < 18.5) ∧
      (c = "Normal" ↔ 18.5 ≤ w / (h / 100 * (h / 100)) ∧ w / (h / 100 * (h / 100)) ≤ 24.9) ∧
      (c = "Overweight" ↔ 25 ≤ w / (h / 100 * (h / 100)) ∧ w / (h / 100 * (h / 100)) ≤ 29.9) ∧
      (c = "Obese" ↔ ((24.9 < w / (h / 100 * (h / 100)) ∧ w / (h / 100 * (h / 100)) < 25) ∨
        29.9 < w / (h / 100 * (h / 100))))) ∧
    calculate_bmi (some 175) (some 70) = some (22.86, "Normal") ∧
    calculate_bmi none (some 70) = none := by
  refine ⟨?_, by norm_num [calculate_bmi, round2, roundHalfEven], rfl⟩
  have hhm : ¬ (h / 100 ≤ 0) := not_le.mpr (by positivity)
  have hne : ¬ (h = 0 ∨ w = 0) := by
    push_neg
    exact ⟨ne_of_gt hh, hw⟩
  have hcalc : calculate_bmi (some h) (some w) =
      some (round2 (w / (h / 100 * (h / 100))),
        if w / (h / 100 * (h / 100)) < 18.5 then "Underweight"
        else if 18.5 ≤ w / (h / 100 * (h / 100)) ∧ w / (h / 100 * (h / 100)) ≤ 24.9 then "Normal"
        else if 25 ≤ w / (h / 100 * (h / 100)) ∧ w / (h / 100 * (h / 100)) ≤ 29.9 then "Overweight"
        else "Obese") := by
    rw [calculate_bmi, if_neg hne, if_neg hhm]
  by_cases b1 : w / (h / 100 * (h / 100)) < 18.5
  · refine ⟨_, "Underweight", by rw [hcalc, if_pos b1], round2_close _, ?_, ?_, ?_, ?_⟩
    · exact iff_of_true rfl b1
    · exact iff_of_false (by decide) (fun hc => by linarith [hc.1])
    · exact iff_of_false (by decide) (fun hc => by linarith [hc.1])
    · refine iff_of_false (by decide) ?_
      rintro (⟨hc, _⟩ | hc) <;> linarith
  · by_cases b2 : 18.5 ≤ w / (h / 100 * (h / 100)) ∧ w / (h / 100 * (h / 100)) ≤ 24.9
    · refine ⟨_, "Normal", by rw [hcalc, if_neg b1, if_pos b2], round2_close _, ?_, ?_, ?_, ?_⟩
      · exact iff_of_false (by decide) b1
      · exact iff_of_true rfl b2
      · exact iff_of_false (by decide) (fun hc => by linarith [b2.2, hc.1])
      · refine iff_of_false (by decide) ?_
        rintro (⟨hc, _⟩ | hc) <;> linarith [b2.2]
    · by_cases b3 : 25 ≤ w / (h / 100 * (h / 100)) ∧ w / (h / 100 * (h / 100)) ≤ 29.9
      · refine ⟨_, "Overweight", by rw [hcalc, if_neg b1, if_neg b2, if_pos b3],
          round2_close _, ?_, ?_, ?_, ?_⟩
        · exact iff_of_false (by decide) (fun hc => by linarith [b3.1])
        · exact iff_of_false (by decide) (fun hc => by linarith [b3.1, hc.2])
        · exact iff_of_true rfl b3
        · refine iff_of_false (by decide) ?_
          rintro (⟨_, hc⟩ | hc) <;> linarith [b3.1, b3.2]
      · refine ⟨_, "Obese", by rw [hcalc, if_neg b1, if_neg b2, if_neg b3],
          round2_close _, ?_, ?_, ?_, ?_⟩
        · exact iff_of_false (by decide) b1
        · exact iff_of_false (by decide) b2
        · exact iff_of_false (by decide) b3
        · refine iff_of_true rfl ?_
          by_cases hlt : w / (h / 100 * (h / 100)) < 25
          · left
            refine ⟨?_, hlt⟩
            rcases not_and_or.mp b2 with hx | hx
            · linarith [not_lt.mp b1]
            · linarith [not_le.mp hx]
          · right
            rcases not_and_or.mp b3 with hx | hx
            · linarith [not_le.mp hx, not_lt.mp hlt]
            · linarith [not_le.mp hx]

/-- Witness for amended C8: the concrete instances of the claim at `(175,
70)` and at a missing height. -/
theorem calculate_bmi_bands_witness :
    (0 : ℚ) < 175 ∧ ((70 : ℚ) ≠ 0) ∧
    calculate_bmi (some 175) (some 70) = some (22.86, "Normal") ∧
    calculate_bmi none (some 70) = none := by
  have h := calculate_bmi_bands 175 70 (by norm_num) (by norm_num)
  exact ⟨by norm_num, by norm_num, h.2.1, h.2.2⟩

/-- **C9, counterexample.** On `wC9` (one member, valid pass, last visit two
days ago) the operation returns a list of candidate records with the
hard-coded probability 85 — it computes no weighted-count total.  The
claim's formula over the member's own return probability (86 per cent, so
counted in the `≥ 0.7` bucket under any scale reading) evaluates to `0.8`, a
value appearing nowhere in the output. -/
theorem expected_returns_formula_counterexample :
    get_expected_returns_next_3_days wC9 wNow =
      [{ member := 1, last_visit := { day := -2, hour := 9, minute := 0 }, probability := 85 }] ∧
    (predict_churn wC9 1 wNow).1 = 86 ∧
    expectedReturnsSpec [(predict_churn wC9 1 wNow).1] = 0.8 ∧
    ((85 : ℚ) ≠ 0.8) := by
  have hp : (predict_churn wC9 1 wNow).1 = 86 := by
    have hfd : tdiffDays { day := -2, hour := 9, minute := 0 } wNow = 2 := by decide
    rw [predict_churn]
    norm_num [wC9, wVisit, hfd]
  refine ⟨rfl, hp, ?_, by norm_num⟩
  rw [hp, expectedReturnsSpec, round1, roundHalfEven]
  norm_num [List.filter]

/-- **C9, amended.** `get_expected_returns_next_3_days` returns at most 5
candidate records, each describing a member who holds a pass that is active
and current today and whose most recent attendance is between 1 and 4 days
old, tagged with the fixed probability 85; no weighted-count formula over
return probabilities is computed. -/
theorem expected_returns_candidates (s : GymState) (now : DateTime) :
    (get_expected_returns_next_3_days s now).length ≤ 5 ∧
    ∀ c ∈ get_expected_returns_next_3_days s now,
      c.probability = 85 ∧
      (∃ p ∈ s.passes, p.member = c.member ∧ p.status = PassStatus.active ∧
        p.start_date ≤ now.day ∧ now.day ≤ p.end_date) ∧
      (∃ a, s.attendances.find? (fun x => x.member = c.member) = some a ∧
        a.checked_in_at = c.last_visit ∧ 1 ≤ tdiffDays a.checked_in_at now ∧
        tdiffDays a.checked_in_at now ≤ 4) := by
  constructor
  · rw [get_expected_returns_next_3_days]
    rw [List.length_take]
    exact min_le_left _ _
  · intro c hc
    simp only [get_expected_returns_next_3_days] at hc
    have hc2 := List.mem_of_mem_take hc
    rw [List.mem_filterMap] at hc2
    obtain ⟨mp, hmp, hbody⟩ := hc2
    have hmpf := List.mem_filter.mp hmp
    rcases hfind : s.attendances.find? (fun a => a.member = mp.member) with _ | lv
    · rw [hfind] at hbody
      simp at hbody
    · rw [hfind] at hbody
      simp only [] at hbody
      by_cases hd : 1 ≤ tdiffDays lv.checked_in_at now ∧ tdiffDays lv.checked_in_at now ≤ 4
      · rw [if_pos hd] at hbody
        have hceq := Option.some_inj.mp hbody
        subst hceq
        refine ⟨rfl, ⟨mp, hmpf.1, rfl, ?_, ?_, ?_⟩, ⟨lv, hfind, rfl, hd.1, hd.2⟩⟩
        · have := hmpf.2; simp at this; exact this.1
        · have := hmpf.2; simp at this; exact this.2.1
        · have := hmpf.2; simp at this; exact this.2.2
      · rw [if_neg hd] at hbody
        simp at hbody

/-- Witness for amended C9: on `wC9` the output has at most 5 entries and
its (sole) candidate carries probability 85. -/
theorem expected_returns_candidates_witness :
    (get_expected_returns_next_3_days wC9 wNow).length ≤ 5 ∧
    ({ member := 1, last_visit := { day := -2, hour := 9, minute := 0 }, probability := 85 } :
      ReturnCandidate).probability = 85 := by
  have h := expected_returns_candidates wC9 wNow
  refine ⟨h.1, ?_⟩
  have hm : ({ member := 1, last_visit := { day := -2, hour := 9, minute := 0 }, probability := 85 } :
      ReturnCandidate) ∈ get_expected_returns_next_3_days wC9 wNow := by
    rw [show get_expected_returns_next_3_days wC9 wNow =
      [{ member := 1, last_visit := { day := -2, hour := 9, minute := 0 }, probability := 85 }] from rfl]
    exact List.mem_singleton.mpr rfl
  exact (h.2 _ hm).1

end Vibe
